import Mathlib

/-!
Verification of the playback-session and watch-progress/discovery core of the
movie-app backend (Express + Mongoose controllers), shallowly embedded in Lean.
Mongo ObjectIds are modelled as strings (the controllers compare them via
`toString()`); timestamps are modelled as naturals; document-store reads and
writes become explicit list traversals over the in-memory state.
-/

namespace MovieApp

/-- Content type discriminator (the `ContentType` enum of the User model:
`Movie` or `Series`). -/
inductive CType where
  | movie
  | series
  deriving DecidableEq, Repr

/-- One watch-history entry embedded in a profile (`IWatchHistory` in the
User model): content reference, type, optional episode reference, progress
and duration in seconds, and the last-update timestamp. -/
structure HistEntry where
  contentId : String
  contentType : CType
  episodeId : Option String
  progress : Int
  duration : Int
  updatedAt : Nat
  deriving DecidableEq, Repr

/-- A user profile as far as this slice needs it (`IProfile` in the User
model): the embedded watch-history list and the my-list of content ids. -/
structure Profile where
  watchHistory : List HistEntry
  myList : List String
  deriving DecidableEq, Repr

/-! ## updateProgress (userController.ts lines 330-351) -/

/-- The entry-match predicate of `updateProgress`:
`h.contentId.toString() === contentId && (!episodeId || h.episodeId?.toString() === episodeId)`.
A request without an episodeId short-circuits the second conjunct, so it
matches any entry with the same contentId; a request with an episodeId
requires the entry to carry that same episodeId. -/
def histMatch (cid : String) (eid : Option String) (h : HistEntry) : Bool :=
  h.contentId == cid && (eid.isNone || h.episodeId == eid)

/-- One `updateProgress` request body (after route validation). -/
structure ProgressCall where
  contentId : String
  contentType : CType
  episodeId : Option String
  progress : Int
  duration : Int
  now : Nat
  deriving DecidableEq, Repr

/-- Core of `updateProgress`: `findIndex` with `histMatch` over the history
list; when found, overwrite `progress`, `duration` and `updatedAt` of that
entry in place; otherwise push a new entry at the end. The recursion below
replaces the first matching entry and appends exactly when no entry matches,
which is what findIndex-then-assign/push does. -/
def applyProgress (history : List HistEntry) (c : ProgressCall) : List HistEntry :=
  match history with
  | [] => [⟨c.contentId, c.contentType, c.episodeId, c.progress, c.duration, c.now⟩]
  | h :: rest =>
    if histMatch c.contentId c.episodeId h then
      { h with progress := c.progress, duration := c.duration, updatedAt := c.now } :: rest
    else
      h :: applyProgress rest c

/-- A sequence of `updateProgress` calls run against a fresh profile
(profiles are created with `watchHistory: []`). -/
def runProgress (calls : List ProgressCall) : List HistEntry :=
  calls.foldl applyProgress []

/-- The composite natural key named by the spec: (contentId, episodeId). -/
def specKey (h : HistEntry) : String × Option String :=
  (h.contentId, h.episodeId)

/-! ## Playback sessions (playbackController.ts, PlaybackSession model) -/

/-- A recorded playback error (`IPlaybackError`): code, message, timestamp. -/
structure PBError where
  code : String
  message : String
  timestamp : Nat
  deriving DecidableEq, Repr

/-- A playback session document (`IPlaybackSession`), with the fields the
controllers read or write. `updatedAt` is the mongoose timestamp that
`updatePlayback` and `completePlayback` both set explicitly. -/
structure Session where
  sessionId : String
  profileId : String
  titleId : String
  episodeId : Option String
  startedAt : Nat
  lastPositionMs : Int
  durationMs : Int
  currentCdn : String
  currentBitrate : Int
  playbackErrors : List PBError
  playbackToken : String
  manifestUrl : String
  licenseUrl : String
  resumeAt : Int
  isCompleted : Bool
  completedAt : Option Nat
  updatedAt : Nat
  deriving DecidableEq, Repr

/-- The `playbackError` object of an update request: code and message. -/
structure PBErrorReq where
  code : String
  message : String
  deriving DecidableEq, Repr

/-- A PATCH `playback/:sessionId` body: each field optional, mirroring the
`typeof x === 'number'` / `=== 'string'` presence checks of the controller. -/
structure UpdateReq where
  lastPositionMs : Option Int
  durationMs : Option Int
  resumeAt : Option Int
  currentCdn : Option String
  currentBitrate : Option Int
  playbackError : Option PBErrorReq
  deriving DecidableEq, Repr

/-- Mirrors `if (typeof lastPositionMs === 'number') updates.lastPositionMs = ...`. -/
def updLastPositionMs (s : Session) (o : Option Int) : Session :=
  match o with
  | some v => { s with lastPositionMs := v }
  | none => s

/-- Mirrors `if (typeof durationMs === 'number') updates.durationMs = ...`. -/
def updDurationMs (s : Session) (o : Option Int) : Session :=
  match o with
  | some v => { s with durationMs := v }
  | none => s

/-- Mirrors `if (typeof resumeAt === 'number') updates.resumeAt = ...`. -/
def updResumeAt (s : Session) (o : Option Int) : Session :=
  match o with
  | some v => { s with resumeAt := v }
  | none => s

/-- Mirrors `if (typeof currentCdn === 'string') updates.currentCdn = ...`. -/
def updCurrentCdn (s : Session) (o : Option String) : Session :=
  match o with
  | some v => { s with currentCdn := v }
  | none => s

/-- Mirrors `if (typeof currentBitrate === 'number') updates.currentBitrate = ...`. -/
def updCurrentBitrate (s : Session) (o : Option Int) : Session :=
  match o with
  | some v => { s with currentBitrate := v }
  | none => s

/-- Mirrors `if (playbackError?.code && playbackError?.message) updates.$push = ...`:
append one error record exactly when both code and message are truthy
(non-empty) strings. -/
def updPlaybackError (s : Session) (o : Option PBErrorReq) (now : Nat) : Session :=
  match o with
  | some pe =>
    if pe.code != "" && pe.message != "" then
      { s with playbackErrors := s.playbackErrors ++ [⟨pe.code, pe.message, now⟩] }
    else s
  | none => s

/-- The error records appended by one update request: one record when the
request carries a playback error with non-empty code and message, none
otherwise. -/
def pbAppend (o : Option PBErrorReq) (now : Nat) : List PBError :=
  match o with
  | some pe =>
    if pe.code != "" && pe.message != "" then [⟨pe.code, pe.message, now⟩] else []
  | none => []

/-- The effect of `updatePlayback` on one session document: the `updates`
object always carries `updatedAt = now`, plus the fields present in the
request, plus the optional `$push` of a playback error. -/
def applyUpdate (s : Session) (r : UpdateReq) (now : Nat) : Session :=
  updPlaybackError
    (updCurrentBitrate
      (updCurrentCdn
        (updResumeAt
          (updDurationMs
            (updLastPositionMs { s with updatedAt := now } r.lastPositionMs)
            r.durationMs)
          r.resumeAt)
        r.currentCdn)
      r.currentBitrate)
    r.playbackError now

/-- The effect of `completePlayback` on one session document:
`{ isCompleted: true, completedAt: now, updatedAt: now }`. -/
def completeSession (s : Session) (now : Nat) : Session :=
  { s with isCompleted := true, completedAt := some now, updatedAt := now }

/-- Mirrors `findOneAndUpdate({ sessionId }, ...)`: apply `f` to the first stored
session whose `sessionId` matches; `none` (a 404) when no session matches. -/
def updateFirst (store : List Session) (sid : String) (f : Session → Session) :
    Option (List Session) :=
  match store with
  | [] => none
  | s :: rest =>
    if s.sessionId == sid then some (f s :: rest)
    else (updateFirst rest sid f).map (fun t => s :: t)

/-- PATCH `playback/:sessionId` against the session store. -/
def updatePlayback (store : List Session) (sid : String) (r : UpdateReq) (now : Nat) :
    Option (List Session) :=
  updateFirst store sid (fun s => applyUpdate s r now)

/-- POST `playback/:sessionId/complete` against the session store. -/
def completePlayback (store : List Session) (sid : String) (now : Nat) :
    Option (List Session) :=
  updateFirst store sid (fun s => completeSession s now)

/-- Reading a session by id (`findOne({ sessionId })`): first match. -/
def findSession (store : List Session) (sid : String) : Option Session :=
  match store with
  | [] => none
  | s :: rest => if s.sessionId == sid then some s else findSession rest sid

/-- A later playback lifecycle call against the store. -/
inductive PBOp where
  | update (sid : String) (r : UpdateReq) (now : Nat)
  | complete (sid : String) (now : Nat)
  deriving DecidableEq, Repr

/-- One lifecycle call applied to the store; an unmatched sessionId is a 404
and leaves the store unchanged. -/
def stepPB (store : List Session) (op : PBOp) : List Session :=
  match op with
  | .update sid r now => (updatePlayback store sid r now).getD store
  | .complete sid now => (completePlayback store sid now).getD store

/-- A sequence of later lifecycle calls. -/
def runPB (store : List Session) (ops : List PBOp) : List Session :=
  ops.foldl stepPB store

/-- The invariant behind P2: every read of `sid` (first match) is completed. -/
def CompletedAtRead (store : List Session) (sid : String) : Prop :=
  ∀ s, findSession store sid = some s → s.isCompleted = true

/-- A fresh not-yet-completed session used to witness C5 concretely. -/
def c5session : Session :=
  ⟨"s1", "p1", "t1", none, 0, 0, 600000, "cloudflare", 0, [], "", "", "", 0,
   false, none, 0⟩

/-- An update request touching only the position, used to witness C5. -/
def c5req : UpdateReq := ⟨some 300000, none, none, none, none, none⟩

/-! ## Catalog and discovery (contentController.ts) -/

/-- A catalog document (Movie or Series) as far as the discovery logic
reads it: id, genre list, view counter, publication flag. -/
structure Item where
  id : String
  genres : List String
  views : Nat
  isPublished : Bool
  deriving DecidableEq, Repr

/-- The two content collections. List order is collection (natural) order,
which is what an unsorted Mongo `find` returns. -/
structure Catalog where
  movies : List Item
  series : List Item
  deriving DecidableEq, Repr

/-- Mirrors `sort({ views: -1 })`: stable sort by view counter, descending. -/
def sortByViewsDesc (l : List Item) : List Item :=
  l.insertionSort (fun a b => b.views ≤ a.views)

/-- Mirrors `Movie.find({ isPublished: true }).sort({ views: -1 }).limit(limit)`:
the globally trending movies. -/
def trendingMovies (movies : List Item) (limit : Nat) : List Item :=
  (sortByViewsDesc (movies.filter (fun m => m.isPublished))).take limit

/-- The content ids in a profile's watch history
(`profile.watchHistory.map(h => h.contentId.toString())`). -/
def watchedIds (p : Profile) : List String :=
  p.watchHistory.map (fun h => h.contentId)

/-- The aggregation `$unwind profiles / $match watchHistory.contentId $in
watchedIds`: all profiles (across every account) sharing at least one
watched content id with the requester. The requesting profile itself, when
stored, also matches. -/
def neighborProfiles (allProfiles : List Profile) (p : Profile) : List Profile :=
  allProfiles.filter (fun q =>
    q.watchHistory.any (fun h => (watchedIds p).contains h.contentId))

/-- Content ids watched by neighbor profiles that the requester has not
watched (the `similarWatchedIds` set; only membership matters downstream). -/
def similarWatchedIds (allProfiles : List Profile) (p : Profile) : List String :=
  ((neighborProfiles allProfiles p).flatMap
    (fun q => q.watchHistory.map (fun h => h.contentId))).filter
    (fun i => !((watchedIds p).contains i))

/-- The candidate recommendations: published movies then published series
whose id lies in the similar-watched set, each query limited to 10, the
concatenation sliced to 10. -/
def candidateRecs (cat : Catalog) (allProfiles : List Profile) (p : Profile) :
    List Item :=
  ((cat.movies.filter (fun m =>
      (similarWatchedIds allProfiles p).contains m.id && m.isPublished)).take 10 ++
   (cat.series.filter (fun s =>
      (similarWatchedIds allProfiles p).contains s.id && s.isPublished)).take 10).take 10

/-- Endpoint `getCollaborativeRecommendations`: cold-start trending fallback on an
empty watch history; otherwise neighbor-based candidates, padded with
trending movies not watched by the profile when fewer than 10 candidates
exist. Note the pad excludes only `watchedIds`, not the candidates already
selected. -/
def collabRecs (cat : Catalog) (allProfiles : List Profile) (p : Profile) :
    List Item :=
  if (watchedIds p).isEmpty then
    trendingMovies cat.movies 10
  else
    let recs := candidateRecs cat allProfiles p
    if recs.length < 10 then
      recs ++ (sortByViewsDesc (cat.movies.filter (fun m =>
        m.isPublished && !((watchedIds p).contains m.id)))).take (10 - recs.length)
    else recs

/-- A two-movie catalog used by the C3 artifacts. -/
def c3cat : Catalog := ⟨[⟨"w", [], 1, true⟩, ⟨"m", [], 5, true⟩], []⟩

/-- The requesting profile for C3: it has watched movie "w". -/
def c3p : Profile := ⟨[⟨"w", CType.movie, none, 1, 10, 1⟩], []⟩

/-- A neighbor profile for C3: it has watched "w" and "m". -/
def c3neighbor : Profile :=
  ⟨[⟨"w", CType.movie, none, 1, 10, 1⟩, ⟨"m", CType.movie, none, 1, 10, 2⟩], []⟩

/-- All stored profiles for C3 (the requester is stored too, as in the
aggregation over every account). -/
def c3profiles : List Profile := [c3p, c3neighbor]

/-- Mirrors `user?.profiles[0]` followed by `activeProfile?.myList || []`: the
my-list of the account's first profile, empty when there is no profile.
`getRelatedContent` never reads a profile id from the request. -/
def firstProfileMyList (profiles : List Profile) : List String :=
  ((profiles.head?).map (fun q => q.myList)).getD []

/-- Tier 1 of `getRelatedContent`: when the my-list is non-empty, up to 5
published movies and up to 5 published series (collection order) whose id is
on the my-list and differs from the source id. -/
def watchTier (cat : Catalog) (myList : List String) (srcId : String) : List Item :=
  if myList.isEmpty then []
  else
    (cat.movies.filter (fun m =>
      myList.contains m.id && m.id != srcId && m.isPublished)).take 5 ++
    (cat.series.filter (fun s =>
      myList.contains s.id && s.id != srcId && s.isPublished)).take 5

/-- Tier 2 of `getRelatedContent`: published items of the source's own
collection sharing the source's primary genre (first genre), excluding the
source and the already-selected ids, limited to the remaining slots. Empty
when the source has no genres. -/
def genreTier (cat : Catalog) (ty : String) (srcId : String) (genres : List String)
    (sel : List Item) : List Item :=
  match genres with
  | [] => []
  | g :: _ =>
    ((if ty == "Movie" then cat.movies else cat.series).filter (fun m =>
      m.isPublished && m.genres.contains g && m.id != srcId &&
      !((sel.map (fun r => r.id)).contains m.id))).take (10 - sel.length)

/-- Tier 3 of `getRelatedContent`: globally trending published movies,
excluding the source and the already-selected ids, limited to the remaining
slots. -/
def trendTier (cat : Catalog) (srcId : String) (sel : List Item) : List Item :=
  (sortByViewsDesc (cat.movies.filter (fun m =>
    m.isPublished && m.id != srcId &&
    !((sel.map (fun r => r.id)).contains m.id)))).take (10 - sel.length)

/-- The tier cascade of `getRelatedContent`: tier 1, then tier 2 only while
below 10, then tier 3 only while below 10, finally sliced to 10. -/
def relatedRecs (cat : Catalog) (myList : List String) (srcId ty : String)
    (genres : List String) : List Item :=
  let recs1 := watchTier cat myList srcId
  let recs2 :=
    if recs1.length < 10 then recs1 ++ genreTier cat ty srcId genres recs1 else recs1
  let recs3 := if recs2.length < 10 then recs2 ++ trendTier cat srcId recs2 else recs2
  recs3.take 10

/-- Endpoint `getRelatedContent`: resolve the source by id in the collection chosen
by the `type` query parameter (404 when absent), then run the tier cascade
seeded from the first profile's my-list and the source's genres. -/
def getRelatedContent (cat : Catalog) (profiles : List Profile) (srcId ty : String) :
    Option (List Item) :=
  match (if ty == "Movie" then cat.movies.find? (fun m => m.id == srcId)
         else cat.series.find? (fun m => m.id == srcId)) with
  | none => none
  | some cur => some (relatedRecs cat (firstProfileMyList profiles) srcId ty cur.genres)

/-- The C2 catalog: source "s" (genre Action), six published watchlist
movies "m1".."m6" (genre Drama), and a non-watchlist Action movie "g". -/
def c2cat : Catalog :=
  ⟨[⟨"s", ["Action"], 0, true⟩,
    ⟨"m1", ["Drama"], 0, true⟩, ⟨"m2", ["Drama"], 0, true⟩,
    ⟨"m3", ["Drama"], 0, true⟩, ⟨"m4", ["Drama"], 0, true⟩,
    ⟨"m5", ["Drama"], 0, true⟩, ⟨"m6", ["Drama"], 0, true⟩,
    ⟨"g", ["Action"], 0, true⟩], []⟩

/-- The C2 account: one profile whose my-list holds "m1".."m6". -/
def c2profiles : List Profile :=
  [⟨[], ["m1", "m2", "m3", "m4", "m5", "m6"]⟩]

/-- The result `getRelatedContent` returns on the C2 catalog and account. -/
def c2result : List Item :=
  [⟨"m1", ["Drama"], 0, true⟩, ⟨"m2", ["Drama"], 0, true⟩,
   ⟨"m3", ["Drama"], 0, true⟩, ⟨"m4", ["Drama"], 0, true⟩,
   ⟨"m5", ["Drama"], 0, true⟩, ⟨"g", ["Action"], 0, true⟩,
   ⟨"m6", ["Drama"], 0, true⟩]

/-- The C9 catalog: the source and one my-list movie. -/
def c9cat : Catalog :=
  ⟨[⟨"s", ["Action"], 0, true⟩, ⟨"a", ["Drama"], 1, true⟩], []⟩

/-- A first account state for C9: one profile, empty history, my-list ["a"]. -/
def c9ps1 : List Profile := [⟨[], ["a"]⟩]

/-- A second account state for C9: same first-profile my-list but a
different watch history and an extra second profile with another my-list. -/
def c9ps2 : List Profile :=
  [⟨[⟨"zzz", CType.movie, none, 1, 1, 1⟩], ["a"]⟩, ⟨[], ["other"]⟩]

/-! ## Continue watching (getHomeFeed, contentController.ts lines 36-66) -/

/-- Mirrors `watchHistory.sort((a, b) => b.updatedAt - a.updatedAt)`: stable sort by
last-update time, descending. -/
def sortHistoryDesc (hist : List HistEntry) : List HistEntry :=
  hist.insertionSort (fun a b => b.updatedAt ≤ a.updatedAt)

instance : IsTotal HistEntry (fun a b => b.updatedAt ≤ a.updatedAt) :=
  ⟨fun a b => Nat.le_total b.updatedAt a.updatedAt⟩

instance : IsTrans HistEntry (fun a b => b.updatedAt ≤ a.updatedAt) :=
  ⟨fun _ _ _ hab hbc => Nat.le_trans hbc hab⟩

/-- Resolving one history entry: `Movie.findById` when `contentType` is
Movie, `Series.findById` otherwise. -/
def lookupContent (cat : Catalog) (h : HistEntry) : Option Item :=
  match h.contentType with
  | .movie => cat.movies.find? (fun m => m.id == h.contentId)
  | .series => cat.series.find? (fun m => m.id == h.contentId)

/-- One row of the continue-watching feed: the resolved content spread with
the entry's progress and duration (and the episode id for series). -/
structure CWRow where
  item : Item
  progress : Int
  duration : Int
  episodeId : Option String
  deriving DecidableEq, Repr

/-- Building one feed row from a history entry and its resolved content. -/
def cwRow (h : HistEntry) (it : Item) : CWRow :=
  ⟨it, h.progress, h.duration,
   match h.contentType with | .movie => none | .series => h.episodeId⟩

/-- The continue-watching projection: sort the history by `updatedAt`
descending, take the first `limit` entries, resolve each and silently skip
entries whose content no longer exists. Total by construction: a dangling
reference never fails the feed. -/
def continueWatching (cat : Catalog) (p : Profile) (limit : Nat) : List CWRow :=
  ((sortHistoryDesc p.watchHistory).take limit).filterMap
    (fun h => (lookupContent cat h).map (cwRow h))

/-- Spec-side observer for C6: the history entries that survive the
projection — the first `limit` most-recent entries whose content resolves. -/
def continueWatchingEntries (cat : Catalog) (p : Profile) (limit : Nat) :
    List HistEntry :=
  ((sortHistoryDesc p.watchHistory).take limit).filter
    (fun h => (lookupContent cat h).isSome)

/-! ## removeFromMyList (userController.ts lines 222-261) -/

/-- Mirrors `profile.myList = profile.myList.filter(id => id.toString() !== contentId)`;
the route then responds success unconditionally — there is no error branch
for a contentId that was never on the list. -/
def removeFromMyList (p : Profile) (contentId : String) : Profile :=
  { p with myList := p.myList.filter (fun i => i != contentId) }

/-! ## startPlayback validation (userRoutes.ts playback/start, playbackController.ts) -/

/-- A JSON value for `durationMs` as far as the `isNumeric` validator
distinguishes values: a number, or any non-numeric value. -/
inductive NumVal where
  | num (n : Int)
  | nonNum
  deriving DecidableEq, Repr

/-- A POST `playback/start` request body; every field may be absent. -/
structure StartBody where
  profileId : Option String
  titleId : Option String
  episodeId : Option String
  durationMs : Option NumVal
  playbackToken : Option String
  manifestUrl : Option String
  licenseUrl : Option String
  currentCdn : Option String
  currentBitrate : Option Int
  resumeAt : Option Int
  deriving DecidableEq, Repr

/-- Validator `body(field).notEmpty()`: fails on an absent or empty value. -/
def notEmptyOk (o : Option String) : Bool :=
  match o with
  | some s => s != ""
  | none => false

/-- Validator `body('durationMs').isNumeric()`: fails on an absent or non-numeric
value. -/
def isNumericOk (o : Option NumVal) : Bool :=
  match o with
  | some (NumVal.num _) => true
  | some NumVal.nonNum => false
  | none => false

/-- Modelled from the spec: the `validate` middleware
(src/middleware/validator.ts is not part of the source snapshot; only the
route chains importing it are). Per the spec, validation failures are
"surfaced as a client error with field-level messages" and "validation is
rejected before any mutation is attempted", so the middleware short-circuits
with a validation error exactly when some route validator failed, before the
controller runs. For `playback/start` the route validators are
`profileId notEmpty`, `titleId notEmpty`, `durationMs isNumeric`. -/
def startValidationOk (b : StartBody) : Bool :=
  notEmptyOk b.profileId && notEmptyOk b.titleId && isNumericOk b.durationMs

/-- Strings accepted by the mongoose `ObjectId` constructor (library
behavior): a 24-character hexadecimal string or any 12-character string;
anything else throws, which `startPlayback` catches as a 500. -/
def validObjectId (s : String) : Bool :=
  s.length == 12 ||
  (s.length == 24 && s.toList.all (fun c => ("0123456789abcdefABCDEF".toList).contains c))

/-- The observable outcome of POST `playback/start`. -/
inductive StartOutcome where
  | validationError
  | serverError
  | created (s : Session)
  deriving DecidableEq, Repr

/-- POST `playback/start`: the validator chain plus `validate` middleware
run first; then the controller converts ids with the ObjectId constructor
(throwing on malformed ids, caught as a 500 server error) and only then
persists a new session with `lastPositionMs` initialized to `resumeAt`
(default 0), `isCompleted` false and an empty error list. The fresh session
id is a parameter. -/
def startPlaybackRoute (store : List Session) (b : StartBody) (freshId : String)
    (now : Nat) : StartOutcome × List Session :=
  if !(startValidationOk b) then (.validationError, store)
  else
    match b.profileId, b.titleId with
    | some pid, some tid =>
      let epOk := match b.episodeId with
        | some e => e == "" || validObjectId e
        | none => true
      if validObjectId pid && validObjectId tid && epOk then
        let s : Session := {
          sessionId := freshId
          profileId := pid
          titleId := tid
          episodeId := (match b.episodeId with
            | some e => if e == "" then none else some e
            | none => none)
          startedAt := now
          lastPositionMs := b.resumeAt.getD 0
          durationMs := (match b.durationMs with | some (NumVal.num n) => n | _ => 0)
          currentCdn := b.currentCdn.getD "cloudflare"
          currentBitrate := b.currentBitrate.getD 0
          playbackErrors := []
          playbackToken := b.playbackToken.getD ""
          manifestUrl := b.manifestUrl.getD ""
          licenseUrl := b.licenseUrl.getD ""
          resumeAt := b.resumeAt.getD 0
          isCompleted := false
          completedAt := none
          updatedAt := now }
        (.created s, store ++ [s])
      else (.serverError, store)
    | _, _ => (.serverError, store)

/-! ## Theorems -/

theorem histMatch_of_specKey_eq {h : HistEntry} {c : ProgressCall}
    (hk : specKey h = (c.contentId, c.episodeId)) :
    histMatch c.contentId c.episodeId h = true := by
  simp only [specKey, Prod.mk.injEq] at hk
  simp [histMatch, hk.1, hk.2]

theorem specKey_mem_applyProgress {history : List HistEntry} {c : ProgressCall}
    {k : String × Option String}
    (hk : k ∈ (applyProgress history c).map specKey) :
    k ∈ history.map specKey ∨ k = (c.contentId, c.episodeId) := by
  induction history with
  | nil =>
    simp only [applyProgress, List.map_cons, List.map_nil, List.mem_singleton] at hk
    right
    simpa [specKey] using hk
  | cons h rest ih =>
    cases hm : histMatch c.contentId c.episodeId h with
    | true =>
      simp only [applyProgress, hm, if_true, List.map_cons, List.mem_cons] at hk
      rcases hk with hk | hk
      · left
        simp only [List.map_cons, List.mem_cons]
        left
        simpa [specKey] using hk
      · left
        simp only [List.map_cons, List.mem_cons]
        right
        exact hk
    | false =>
      simp only [applyProgress, hm, Bool.false_eq_true, if_false, List.map_cons,
        List.mem_cons] at hk
      rcases hk with hk | hk
      · left
        simp [hk]
      · rcases ih hk with h1 | h2
        · left
          simp only [List.map_cons, List.mem_cons]
          right
          exact h1
        · right
          exact h2

theorem applyProgress_nodupKeys {history : List HistEntry} {c : ProgressCall}
    (hn : (history.map specKey).Nodup) :
    ((applyProgress history c).map specKey).Nodup := by
  induction history with
  | nil => simp [applyProgress]
  | cons h rest ih =>
    simp only [List.map_cons, List.nodup_cons] at hn
    obtain ⟨hmem, hrest⟩ := hn
    cases hm : histMatch c.contentId c.episodeId h with
    | true =>
      simp only [applyProgress, hm, if_true, List.map_cons, List.nodup_cons]
      constructor
      · simpa [specKey] using hmem
      · exact hrest
    | false =>
      simp only [applyProgress, hm, Bool.false_eq_true, if_false, List.map_cons,
        List.nodup_cons]
      constructor
      · intro hc
        rcases specKey_mem_applyProgress hc with h1 | h2
        · exact hmem h1
        · rw [histMatch_of_specKey_eq h2] at hm
          exact Bool.noConfusion hm
      · exact ih hrest

/-- C1 (amended): for every sequence of `updateProgress` calls run against a
fresh profile, the resulting watch-history list contains at most one entry
per distinct (contentId, episodeId) pair; a matching call overwrites
progress, duration and updatedAt in place and a call matching no entry
appends. (The matching rule itself differs from the original claim: a call
with an unset episodeId matches the first entry with the same contentId
whatever that entry's episodeId is, rather than only entries with an unset
episodeId — see the counterexample.) -/
theorem C1_updateProgress_key_nodup :
    ∀ calls : List ProgressCall, ((runProgress calls).map specKey).Nodup := by
  intro calls
  have haux : ∀ (cs : List ProgressCall) (hist : List HistEntry),
      (hist.map specKey).Nodup → ((cs.foldl applyProgress hist).map specKey).Nodup := by
    intro cs
    induction cs with
    | nil => intro hist hn; simpa using hn
    | cons c cs ih =>
      intro hist hn
      exact ih _ (applyProgress_nodupKeys hn)
  simpa [runProgress] using haux calls [] (by simp)

/-- C1 counterexample: two calls whose composite keys ("c", some "e") and
("c", none) are distinct under the claim's equality ("unset equals only
unset"). The claim predicts two history entries, the second call appending,
and the ("c", some "e") entry keeping progress 10 from its own most recent
call. The code instead lets the unset-episode call overwrite the
("c", some "e") entry in place: one entry survives, with progress 50. -/
theorem C1_counterexample :
    (runProgress [⟨"c", CType.series, some "e", 10, 100, 1⟩,
                  ⟨"c", CType.series, none, 50, 200, 2⟩]).length = 1 ∧
    (runProgress [⟨"c", CType.series, some "e", 10, 100, 1⟩,
                  ⟨"c", CType.series, none, 50, 200, 2⟩]).map specKey
      = [("c", some "e")] ∧
    (runProgress [⟨"c", CType.series, some "e", 10, 100, 1⟩,
                  ⟨"c", CType.series, none, 50, 200, 2⟩]).map (fun h => h.progress)
      = [50] := by
  decide

theorem updLastPositionMs_eq (s : Session) (o : Option Int) :
    updLastPositionMs s o = { s with lastPositionMs := o.getD s.lastPositionMs } := by
  cases o <;> rfl

theorem updDurationMs_eq (s : Session) (o : Option Int) :
    updDurationMs s o = { s with durationMs := o.getD s.durationMs } := by
  cases o <;> rfl

theorem updResumeAt_eq (s : Session) (o : Option Int) :
    updResumeAt s o = { s with resumeAt := o.getD s.resumeAt } := by
  cases o <;> rfl

theorem updCurrentCdn_eq (s : Session) (o : Option String) :
    updCurrentCdn s o = { s with currentCdn := o.getD s.currentCdn } := by
  cases o <;> rfl

theorem updCurrentBitrate_eq (s : Session) (o : Option Int) :
    updCurrentBitrate s o = { s with currentBitrate := o.getD s.currentBitrate } := by
  cases o <;> rfl

theorem updPlaybackError_eq (s : Session) (o : Option PBErrorReq) (now : Nat) :
    updPlaybackError s o now =
      { s with playbackErrors := s.playbackErrors ++ pbAppend o now } := by
  cases o with
  | none => simp [updPlaybackError, pbAppend]
  | some pe =>
    simp only [updPlaybackError, pbAppend]
    split <;> simp

theorem applyUpdate_eq (s : Session) (r : UpdateReq) (now : Nat) :
    applyUpdate s r now =
      { s with
        updatedAt := now
        lastPositionMs := r.lastPositionMs.getD s.lastPositionMs
        durationMs := r.durationMs.getD s.durationMs
        resumeAt := r.resumeAt.getD s.resumeAt
        currentCdn := r.currentCdn.getD s.currentCdn
        currentBitrate := r.currentBitrate.getD s.currentBitrate
        playbackErrors := s.playbackErrors ++ pbAppend r.playbackError now } := by
  unfold applyUpdate
  rw [updLastPositionMs_eq, updDurationMs_eq, updResumeAt_eq, updCurrentCdn_eq,
    updCurrentBitrate_eq, updPlaybackError_eq]

theorem applyUpdate_sessionId (s : Session) (r : UpdateReq) (now : Nat) :
    (applyUpdate s r now).sessionId = s.sessionId := by
  rw [applyUpdate_eq]

theorem applyUpdate_isCompleted (s : Session) (r : UpdateReq) (now : Nat) :
    (applyUpdate s r now).isCompleted = s.isCompleted := by
  rw [applyUpdate_eq]

theorem updateFirst_preserves_completed {store t : List Session} {sid2 sid : String}
    {f : Session → Session}
    (hsid : ∀ s, (f s).sessionId = s.sessionId)
    (hcomp : ∀ s, s.isCompleted = true → (f s).isCompleted = true)
    (hP : CompletedAtRead store sid)
    (ht : updateFirst store sid2 f = some t) :
    CompletedAtRead t sid := by
  induction store generalizing t with
  | nil => simp [updateFirst] at ht
  | cons s0 rest ih =>
    cases h2 : (s0.sessionId == sid2) with
    | true =>
      simp only [updateFirst, h2, if_true] at ht
      obtain rfl := (Option.some_inj.mp ht).symm
      intro s hs
      cases h1 : ((f s0).sessionId == sid) with
      | true =>
        simp only [findSession, h1, if_true, Option.some_inj] at hs
        have hs0 : (s0.sessionId == sid) = true := by
          rw [hsid s0] at h1
          exact h1
        have hfind : findSession (s0 :: rest) sid = some s0 := by
          simp [findSession, hs0]
        subst hs
        exact hcomp s0 (hP s0 hfind)
      | false =>
        simp only [findSession, h1, Bool.false_eq_true, if_false] at hs
        have hs0 : (s0.sessionId == sid) = false := by
          rw [hsid s0] at h1
          exact h1
        have hrest : CompletedAtRead rest sid := by
          intro x hx
          apply hP x
          simp [findSession, hs0]
          exact hx
        exact hrest s hs
    | false =>
      simp only [updateFirst, h2, Bool.false_eq_true, if_false, Option.map_eq_some'] at ht
      obtain ⟨t', ht', rfl⟩ := ht
      intro s hs
      cases h1 : (s0.sessionId == sid) with
      | true =>
        simp only [findSession, h1, if_true, Option.some_inj] at hs
        have hfind : findSession (s0 :: rest) sid = some s0 := by
          simp [findSession, h1]
        subst hs
        exact hP s0 hfind
      | false =>
        simp only [findSession, h1, Bool.false_eq_true, if_false] at hs
        have hrest : CompletedAtRead rest sid := by
          intro x hx
          apply hP x
          simp [findSession, h1]
          exact hx
        exact ih hrest ht' s hs

theorem stepPB_preserves_completed {store : List Session} {sid : String} (op : PBOp)
    (hP : CompletedAtRead store sid) :
    CompletedAtRead (stepPB store op) sid := by
  cases op with
  | update sid2 r n =>
    cases hu : updatePlayback store sid2 r n with
    | none => simpa [stepPB, hu] using hP
    | some t =>
      have := updateFirst_preserves_completed
        (f := fun s => applyUpdate s r n)
        (fun s => applyUpdate_sessionId s r n)
        (fun s h => by rw [applyUpdate_isCompleted]; exact h)
        hP hu
      simpa [stepPB, hu] using this
  | complete sid2 n =>
    cases hu : completePlayback store sid2 n with
    | none => simpa [stepPB, hu] using hP
    | some t =>
      have := updateFirst_preserves_completed
        (f := fun s => completeSession s n)
        (fun s => rfl)
        (fun s _ => rfl)
        hP hu
      simpa [stepPB, hu] using this

theorem completePlayback_establishes {store t : List Session} {sid : String} {now : Nat}
    (hc : completePlayback store sid now = some t) :
    CompletedAtRead t sid := by
  unfold completePlayback at hc
  induction store generalizing t with
  | nil => simp [updateFirst] at hc
  | cons s0 rest ih =>
    cases h2 : (s0.sessionId == sid) with
    | true =>
      simp only [updateFirst, h2, if_true] at hc
      obtain rfl := (Option.some_inj.mp hc).symm
      intro s hs
      have h1 : ((completeSession s0 now).sessionId == sid) = true := by
        simpa [completeSession] using h2
      simp only [findSession, h1, if_true, Option.some_inj] at hs
      subst hs
      rfl
    | false =>
      simp only [updateFirst, h2, Bool.false_eq_true, if_false, Option.map_eq_some'] at hc
      obtain ⟨t', ht', rfl⟩ := hc
      intro s hs
      simp only [findSession, h2, Bool.false_eq_true, if_false] at hs
      exact ih ht' s hs

/-- C5: once `complete(sessionId)` has succeeded on the store, every
subsequent read of that sessionId sees `isCompleted = true`, whatever
sequence of further `update` or `complete` calls (on any session ids) is
applied: no operation ever resets `isCompleted` to false. -/
theorem C5_complete_terminal (store t : List Session) (sid : String) (now : Nat)
    (ops : List PBOp) (hc : completePlayback store sid now = some t) :
    ∀ s, findSession (runPB t ops) sid = some s → s.isCompleted = true := by
  have hbase : CompletedAtRead t sid := completePlayback_establishes hc
  have haux : ∀ (os : List PBOp) (st : List Session),
      CompletedAtRead st sid → CompletedAtRead (runPB st os) sid := by
    intro os
    induction os with
    | nil => intro st h; simpa [runPB] using h
    | cons o os ih =>
      intro st h
      have h1 := stepPB_preserves_completed o h
      simpa [runPB] using ih _ h1
  exact haux ops t hbase

theorem C5_witness :
    (applyUpdate (completeSession c5session 10) c5req 11).isCompleted = true :=
  C5_complete_terminal [c5session] [completeSession c5session 10] "s1" 10
    [PBOp.update "s1" c5req 11] (by decide) _ (by decide)

/-- C8 (amended): `update(sessionId, partialFields)` on an existing session
changes exactly the supplied fields (`lastPositionMs`, `durationMs`,
`resumeAt`, `currentCdn`, `currentBitrate`, and the appended playback error
when code and message are both non-empty), always refreshes `updatedAt` to
the current time, and leaves every other stored field at its prior value:
partial-update semantics, not full replacement. -/
theorem C8_update_partial (s : Session) (r : UpdateReq) (now : Nat) :
    (applyUpdate s r now).sessionId = s.sessionId ∧
    (applyUpdate s r now).profileId = s.profileId ∧
    (applyUpdate s r now).titleId = s.titleId ∧
    (applyUpdate s r now).episodeId = s.episodeId ∧
    (applyUpdate s r now).startedAt = s.startedAt ∧
    (applyUpdate s r now).playbackToken = s.playbackToken ∧
    (applyUpdate s r now).manifestUrl = s.manifestUrl ∧
    (applyUpdate s r now).licenseUrl = s.licenseUrl ∧
    (applyUpdate s r now).isCompleted = s.isCompleted ∧
    (applyUpdate s r now).completedAt = s.completedAt ∧
    (applyUpdate s r now).updatedAt = now ∧
    (applyUpdate s r now).lastPositionMs = r.lastPositionMs.getD s.lastPositionMs ∧
    (applyUpdate s r now).durationMs = r.durationMs.getD s.durationMs ∧
    (applyUpdate s r now).resumeAt = r.resumeAt.getD s.resumeAt ∧
    (applyUpdate s r now).currentCdn = r.currentCdn.getD s.currentCdn ∧
    (applyUpdate s r now).currentBitrate = r.currentBitrate.getD s.currentBitrate ∧
    (applyUpdate s r now).playbackErrors =
      s.playbackErrors ++ pbAppend r.playbackError now := by
  rw [applyUpdate_eq]
  exact ⟨rfl, rfl, rfl, rfl, rfl, rfl, rfl, rfl, rfl, rfl, rfl, rfl, rfl, rfl, rfl,
    rfl, rfl⟩

/-- C8 counterexample: an update request supplying no field at all still
changes the stored `updatedAt` (the controller unconditionally puts
`updatedAt: new Date()` into the update), so "every stored session field not
supplied in the request keeps its prior value" fails for `updatedAt`. -/
theorem C8_counterexample :
    (applyUpdate
      ⟨"s1", "p1", "t1", none, 0, 0, 600000, "cloudflare", 0, [], "", "", "", 0,
       false, none, 0⟩
      ⟨none, none, none, none, none, none⟩ 5).updatedAt ≠
    (⟨"s1", "p1", "t1", none, 0, 0, 600000, "cloudflare", 0, [], "", "", "", 0,
      false, none, 0⟩ : Session).updatedAt := by
  decide

theorem sortByViewsDesc_perm (l : List Item) : (sortByViewsDesc l).Perm l :=
  List.perm_insertionSort _ l

theorem sortByViewsDesc_length (l : List Item) : (sortByViewsDesc l).length = l.length :=
  (sortByViewsDesc_perm l).length_eq

/-- C4 (amended): a profile with an empty watch history receives exactly the
globally-trending movie fallback (published movies, highest view counter
first, up to 10), which is non-empty whenever the catalog contains at least
one published movie. (A catalog whose only published items are series
yields an empty list — see the counterexample.) -/
theorem C4_cold_start (cat : Catalog) (allProfiles : List Profile) (p : Profile)
    (hw : p.watchHistory = []) :
    collabRecs cat allProfiles p = trendingMovies cat.movies 10 ∧
    (∀ m ∈ cat.movies, m.isPublished = true → collabRecs cat allProfiles p ≠ []) := by
  have hempty : (watchedIds p).isEmpty = true := by
    simp [watchedIds, hw]
  constructor
  · simp [collabRecs, hempty]
  · intro m hm hpub
    simp only [collabRecs, hempty, if_true]
    have hmem : m ∈ cat.movies.filter (fun m => m.isPublished) :=
      List.mem_filter.mpr ⟨hm, hpub⟩
    have hlen : 0 < (cat.movies.filter (fun m => m.isPublished)).length :=
      List.length_pos_of_mem hmem
    apply List.ne_nil_of_length_pos
    rw [trendingMovies, List.length_take, sortByViewsDesc_length]
    omega

/-- C4 witness at a concrete catalog: one published movie, empty history. -/
theorem C4_witness :
    collabRecs ⟨[⟨"m1", ["Drama"], 7, true⟩], []⟩ [] ⟨[], []⟩ =
      [⟨"m1", ["Drama"], 7, true⟩] ∧
    collabRecs ⟨[⟨"m1", ["Drama"], 7, true⟩], []⟩ [] ⟨[], []⟩ ≠ [] := by
  constructor
  · have h := (C4_cold_start ⟨[⟨"m1", ["Drama"], 7, true⟩], []⟩ [] ⟨[], []⟩ rfl).1
    rw [h]
    decide
  · exact (C4_cold_start ⟨[⟨"m1", ["Drama"], 7, true⟩], []⟩ [] ⟨[], []⟩ rfl).2
      ⟨"m1", ["Drama"], 7, true⟩ (by decide) (by decide)

/-- C4 counterexample: the catalog contains a published item (a series), the
profile has no watch history, yet the result is empty — the cold-start
fallback queries the Movie collection only, so the claimed "non-empty
whenever the catalog contains at least one published item" fails. -/
theorem C4_counterexample :
    collabRecs ⟨[], [⟨"s1", ["Drama"], 5, true⟩]⟩ [] ⟨[], []⟩ = [] ∧
    (⟨"s1", ["Drama"], 5, true⟩ : Item).isPublished = true := by
  decide

theorem mem_similarWatchedIds {allProfiles : List Profile} {p : Profile} {i : String}
    (h : i ∈ similarWatchedIds allProfiles p) :
    i ∉ watchedIds p ∧ ∃ q ∈ allProfiles,
      (∃ h1 ∈ q.watchHistory, h1.contentId ∈ watchedIds p) ∧
      (∃ h2 ∈ q.watchHistory, h2.contentId = i) := by
  simp only [similarWatchedIds, List.mem_filter, List.mem_flatMap, neighborProfiles,
    List.any_eq_true, List.mem_map, Bool.not_eq_true'] at h
  obtain ⟨⟨q, ⟨hq, hshare⟩, hwatch⟩, hnot⟩ := h
  constructor
  · intro hmem
    simp [hmem] at hnot
  · refine ⟨q, hq, ?_, ?_⟩
    · obtain ⟨h1, hh1, hc⟩ := hshare
      exact ⟨h1, hh1, by simpa using hc⟩
    · obtain ⟨h2, hh2, hc⟩ := hwatch
      exact ⟨h2, hh2, hc⟩

theorem mem_candidateRecs {cat : Catalog} {allProfiles : List Profile} {p : Profile}
    {x : Item} (h : x ∈ candidateRecs cat allProfiles p) :
    x.isPublished = true ∧ x.id ∈ similarWatchedIds allProfiles p := by
  have h' := List.mem_of_mem_take h
  rcases List.mem_append.mp h' with h1 | h1 <;>
  · have h2 := List.mem_filter.mp (List.mem_of_mem_take h1)
    have h3 := h2.2
    simp only [Bool.and_eq_true] at h3
    exact ⟨h3.2, by simpa using h3.1⟩

/-- C3 (amended): for a profile with non-empty watch history, every item
returned by `getCollaborativeRecommendations` is published and is either
(a) watched by some neighbor profile (one sharing a watched content id with
the requester) and not watched by the requester, or (b) a trending pad item,
added only when fewer than 10 candidates exist, itself not watched by the
requester. (The returned list can nevertheless contain duplicate content
ids, because the pad excludes only the profile's watched ids and not the
candidates already selected — see the counterexample.) -/
theorem C3_collab_sources (cat : Catalog) (allProfiles : List Profile) (p : Profile)
    (hw : p.watchHistory ≠ []) :
    ∀ x ∈ collabRecs cat allProfiles p,
      x.isPublished = true ∧
      ((∃ q ∈ allProfiles,
          (∃ h1 ∈ q.watchHistory, h1.contentId ∈ watchedIds p) ∧
          (∃ h2 ∈ q.watchHistory, h2.contentId = x.id) ∧
          x.id ∉ watchedIds p) ∨
        (x.id ∉ watchedIds p ∧ (candidateRecs cat allProfiles p).length < 10)) := by
  have hne : (watchedIds p).isEmpty = false := by
    cases hp : p.watchHistory with
    | nil => exact absurd hp hw
    | cons a l => simp [watchedIds, hp]
  intro x hx
  simp only [collabRecs, hne, Bool.false_eq_true, if_false] at hx
  have hcand : x ∈ candidateRecs cat allProfiles p →
      x.isPublished = true ∧
      (∃ q ∈ allProfiles,
        (∃ h1 ∈ q.watchHistory, h1.contentId ∈ watchedIds p) ∧
        (∃ h2 ∈ q.watchHistory, h2.contentId = x.id) ∧
        x.id ∉ watchedIds p) := by
    intro hc
    obtain ⟨hpub, hsim⟩ := mem_candidateRecs hc
    obtain ⟨hnw, q, hq, hshare, hc2⟩ := mem_similarWatchedIds hsim
    exact ⟨hpub, q, hq, hshare, hc2, hnw⟩
  by_cases hlen : (candidateRecs cat allProfiles p).length < 10
  · rw [if_pos hlen] at hx
    rcases List.mem_append.mp hx with hx1 | hx1
    · obtain ⟨hpub, hrest⟩ := hcand hx1
      exact ⟨hpub, Or.inl hrest⟩
    · have h2 := (sortByViewsDesc_perm _).mem_iff.mp (List.mem_of_mem_take hx1)
      have h3 := (List.mem_filter.mp h2).2
      simp only [Bool.and_eq_true, Bool.not_eq_true'] at h3
      refine ⟨h3.1, Or.inr ⟨?_, hlen⟩⟩
      intro hmem
      simp [hmem] at h3
  · rw [if_neg hlen] at hx
    obtain ⟨hpub, hrest⟩ := hcand hx
    exact ⟨hpub, Or.inl hrest⟩

/-- C3 counterexample: movie "m" is recommended from the neighbor and then
again by the trending pad (the pad excludes only the requester's watched
ids), so the returned list contains a duplicate content id, refuting the
no-duplicates part of the claim. -/
theorem C3_counterexample :
    (collabRecs c3cat c3profiles c3p).map (fun x => x.id) = ["m", "m"] ∧
    ¬ ((collabRecs c3cat c3profiles c3p).map (fun x => x.id)).Nodup := by
  decide

theorem C3_witness :
    (⟨"m", [], 5, true⟩ : Item).isPublished = true ∧
    ((∃ q ∈ c3profiles,
        (∃ h1 ∈ q.watchHistory, h1.contentId ∈ watchedIds c3p) ∧
        (∃ h2 ∈ q.watchHistory, h2.contentId = (⟨"m", [], 5, true⟩ : Item).id) ∧
        (⟨"m", [], 5, true⟩ : Item).id ∉ watchedIds c3p) ∨
      ((⟨"m", [], 5, true⟩ : Item).id ∉ watchedIds c3p ∧
        (candidateRecs c3cat c3profiles c3p).length < 10)) :=
  C3_collab_sources c3cat c3profiles c3p (by decide) ⟨"m", [], 5, true⟩ (by decide)

theorem watchTier_length_le (cat : Catalog) (myList : List String) (srcId : String) :
    (watchTier cat myList srcId).length ≤ 10 := by
  unfold watchTier
  split
  · simp
  · rw [List.length_append, List.length_take, List.length_take]
    omega

theorem mem_watchTier {cat : Catalog} {myList : List String} {srcId : String} {x : Item}
    (h : x ∈ watchTier cat myList srcId) :
    x.id ∈ myList ∧ x.id ≠ srcId ∧ x.isPublished = true ∧
    (x ∈ cat.movies ∨ x ∈ cat.series) := by
  unfold watchTier at h
  split at h
  · simp at h
  · rcases List.mem_append.mp h with h1 | h1
    · obtain ⟨hmem, hcond⟩ := List.mem_filter.mp (List.mem_of_mem_take h1)
      simp only [Bool.and_eq_true, bne_iff_ne] at hcond
      exact ⟨by simpa using hcond.1.1, hcond.1.2, hcond.2, Or.inl hmem⟩
    · obtain ⟨hmem, hcond⟩ := List.mem_filter.mp (List.mem_of_mem_take h1)
      simp only [Bool.and_eq_true, bne_iff_ne] at hcond
      exact ⟨by simpa using hcond.1.1, hcond.1.2, hcond.2, Or.inr hmem⟩

theorem mem_genreTier {cat : Catalog} {ty srcId : String} {genres : List String}
    {sel : List Item} {x : Item} (h : x ∈ genreTier cat ty srcId genres sel) :
    x.isPublished = true ∧ x.id ≠ srcId ∧ x.id ∉ sel.map (fun r => r.id) ∧
    (x ∈ cat.movies ∨ x ∈ cat.series) := by
  unfold genreTier at h
  split at h
  · simp at h
  · obtain ⟨hmem, hcond⟩ := List.mem_filter.mp (List.mem_of_mem_take h)
    simp only [Bool.and_eq_true, bne_iff_ne, Bool.not_eq_true'] at hcond
    refine ⟨hcond.1.1.1, hcond.1.2, ?_, ?_⟩
    · intro hc
      simp [hc] at hcond
    · split at hmem
      · exact Or.inl hmem
      · exact Or.inr hmem

theorem mem_trendTier {cat : Catalog} {srcId : String} {sel : List Item} {x : Item}
    (h : x ∈ trendTier cat srcId sel) :
    x.isPublished = true ∧ x.id ≠ srcId ∧ x.id ∉ sel.map (fun r => r.id) ∧
    x ∈ cat.movies := by
  unfold trendTier at h
  have h2 := (sortByViewsDesc_perm _).mem_iff.mp (List.mem_of_mem_take h)
  obtain ⟨hmem, hcond⟩ := List.mem_filter.mp h2
  simp only [Bool.and_eq_true, bne_iff_ne, Bool.not_eq_true'] at hcond
  refine ⟨hcond.1.1, hcond.1.2, ?_, hmem⟩
  intro hc
  simp [hc] at hcond

theorem nodup_ids_append {sel extra : List Item}
    (hsel : (sel.map (fun x => x.id)).Nodup)
    (hextra : (extra.map (fun x => x.id)).Nodup)
    (hdisj : ∀ x ∈ extra, x.id ∉ sel.map (fun r => r.id)) :
    ((sel ++ extra).map (fun x => x.id)).Nodup := by
  rw [List.map_append, List.nodup_append]
  refine ⟨hsel, hextra, ?_⟩
  intro a ha hb
  obtain ⟨x, hx, rfl⟩ := List.mem_map.mp hb
  exact hdisj x hx ha

theorem watchTier_ids_nodup (cat : Catalog) (myList : List String) (srcId : String)
    (hno : ((cat.movies ++ cat.series).map (fun x => x.id)).Nodup) :
    ((watchTier cat myList srcId).map (fun x => x.id)).Nodup := by
  rw [List.map_append, List.nodup_append] at hno
  obtain ⟨nm, ns, hdisj⟩ := hno
  unfold watchTier
  split
  · simp
  · rw [List.map_append, List.nodup_append]
    refine ⟨(((List.take_sublist _ _).trans (List.filter_sublist _)).map _).nodup nm,
      (((List.take_sublist _ _).trans (List.filter_sublist _)).map _).nodup ns, ?_⟩
    intro a ha hb
    exact hdisj
      ((((List.take_sublist _ _).trans (List.filter_sublist _)).map _).subset ha)
      ((((List.take_sublist _ _).trans (List.filter_sublist _)).map _).subset hb)

theorem genreTier_ids_nodup (cat : Catalog) (ty srcId : String) (genres : List String)
    (sel : List Item)
    (hno : ((cat.movies ++ cat.series).map (fun x => x.id)).Nodup) :
    ((genreTier cat ty srcId genres sel).map (fun x => x.id)).Nodup := by
  rw [List.map_append, List.nodup_append] at hno
  obtain ⟨nm, ns, _⟩ := hno
  unfold genreTier
  split
  · simp
  · split
    · exact (((List.take_sublist _ _).trans (List.filter_sublist _)).map _).nodup nm
    · exact (((List.take_sublist _ _).trans (List.filter_sublist _)).map _).nodup ns

theorem trendTier_ids_nodup (cat : Catalog) (srcId : String) (sel : List Item)
    (hno : ((cat.movies ++ cat.series).map (fun x => x.id)).Nodup) :
    ((trendTier cat srcId sel).map (fun x => x.id)).Nodup := by
  rw [List.map_append, List.nodup_append] at hno
  obtain ⟨nm, _, _⟩ := hno
  unfold trendTier
  exact ((List.take_sublist _ _).map _).nodup
    (((sortByViewsDesc_perm _).map _).nodup_iff.mpr
      (((List.filter_sublist _).map _).nodup nm))

theorem relatedRecs_split (cat : Catalog) (myList : List String) (srcId ty : String)
    (genres : List String)
    (hno : ((cat.movies ++ cat.series).map (fun x => x.id)).Nodup) :
    ∃ rest : List Item,
      relatedRecs cat myList srcId ty genres =
        (watchTier cat myList srcId ++ rest).take 10 ∧
      (∀ x ∈ rest, x.isPublished = true ∧ x.id ≠ srcId) ∧
      ((watchTier cat myList srcId ++ rest).map (fun x => x.id)).Nodup := by
  simp only [relatedRecs]
  have hwsn := watchTier_ids_nodup cat myList srcId hno
  by_cases h1 : (watchTier cat myList srcId).length < 10
  · rw [if_pos h1]
    have hn2 : (((watchTier cat myList srcId) ++
        genreTier cat ty srcId genres (watchTier cat myList srcId)).map
          (fun x => x.id)).Nodup :=
      nodup_ids_append hwsn (genreTier_ids_nodup cat ty srcId genres _ hno)
        (fun x hx => (mem_genreTier hx).2.2.1)
    by_cases h2 : ((watchTier cat myList srcId) ++
        genreTier cat ty srcId genres (watchTier cat myList srcId)).length < 10
    · rw [if_pos h2]
      refine ⟨genreTier cat ty srcId genres (watchTier cat myList srcId) ++
        trendTier cat srcId ((watchTier cat myList srcId) ++
          genreTier cat ty srcId genres (watchTier cat myList srcId)), ?_, ?_, ?_⟩
      · rw [List.append_assoc]
      · intro x hx
        rcases List.mem_append.mp hx with hx1 | hx1
        · exact ⟨(mem_genreTier hx1).1, (mem_genreTier hx1).2.1⟩
        · exact ⟨(mem_trendTier hx1).1, (mem_trendTier hx1).2.1⟩
      · rw [← List.append_assoc]
        exact nodup_ids_append hn2 (trendTier_ids_nodup cat srcId _ hno)
          (fun x hx => (mem_trendTier hx).2.2.1)
    · rw [if_neg h2]
      refine ⟨genreTier cat ty srcId genres (watchTier cat myList srcId), rfl, ?_, hn2⟩
      intro x hx
      exact ⟨(mem_genreTier hx).1, (mem_genreTier hx).2.1⟩
  · rw [if_neg h1]
    by_cases h2 : (watchTier cat myList srcId).length < 10
    · exact absurd h2 h1
    · rw [if_neg h2]
      refine ⟨[], by rw [List.append_nil], by simp, by rw [List.append_nil]; exact hwsn⟩

/-- C2 (amended): when the source item resolves and catalog ids are
distinct, `getRelatedContent` fills its 10-slot result in strict tier
priority with no duplicate content ids: the result starts with the whole
watchlist tier (at most 5 movies plus 5 series from the first profile's
my-list, source excluded), every watchlist-tier item precedes every
genre-tier and trending-tier item, later tiers are consulted only while the
result is below the limit, and every returned item is published and differs
from the source. (The original claim's unbounded watchlist tier fails: the
tier is capped at 5 per content type, so a sixth eligible watchlist movie
can rank behind a genre-matched item — see the counterexample.) -/
theorem C2_related_tiers (cat : Catalog) (profiles : List Profile) (srcId ty : String)
    (r : List Item)
    (hno : ((cat.movies ++ cat.series).map (fun x => x.id)).Nodup)
    (hr : getRelatedContent cat profiles srcId ty = some r) :
    r.length ≤ 10 ∧
    (r.map (fun x => x.id)).Nodup ∧
    r.take (watchTier cat (firstProfileMyList profiles) srcId).length =
      watchTier cat (firstProfileMyList profiles) srcId ∧
    (∀ x ∈ watchTier cat (firstProfileMyList profiles) srcId,
      x.id ∈ firstProfileMyList profiles) ∧
    (∀ x ∈ r, x.isPublished = true ∧ x.id ≠ srcId) := by
  unfold getRelatedContent at hr
  cases hfind : (if ty == "Movie" then cat.movies.find? (fun m => m.id == srcId)
      else cat.series.find? (fun m => m.id == srcId)) with
  | none =>
    rw [hfind] at hr
    exact absurd hr (by simp)
  | some cur =>
    rw [hfind] at hr
    simp only [Option.some_inj] at hr
    subst hr
    obtain ⟨rest, hre, hrest, hnodup⟩ :=
      relatedRecs_split cat (firstProfileMyList profiles) srcId ty cur.genres hno
    rw [hre]
    refine ⟨?_, ?_, ?_, ?_, ?_⟩
    · rw [List.length_take]
      omega
    · exact ((List.take_sublist _ _).map _).nodup hnodup
    · rw [List.take_take, min_eq_left (watchTier_length_le cat _ srcId), List.take_left]
    · exact fun x hx => (mem_watchTier hx).1
    · intro x hx
      rcases List.mem_append.mp (List.mem_of_mem_take hx) with hx1 | hx1
      · exact ⟨(mem_watchTier hx1).2.2.1, (mem_watchTier hx1).2.1⟩
      · exact hrest x hx1

/-- C2 counterexample: "m6" is an eligible watchlist item (published, on the
my-list, not the source) and shares no genre with the source, while "g" is a
genre-matched item not on the watchlist — yet the result ranks "g" (index 5)
ahead of "m6" (index 6), because the watchlist tier is capped at 5 movies.
This refutes the claim that any eligible watchlist item ranks ahead of every
genre-matched item not on the watchlist. -/
theorem C2_counterexample :
    (getRelatedContent c2cat c2profiles "s" "Movie").map
        (fun r => r.map (fun x => x.id)) =
      some ["m1", "m2", "m3", "m4", "m5", "g", "m6"] ∧
    "m6" ∈ firstProfileMyList c2profiles ∧
    "g" ∉ firstProfileMyList c2profiles ∧
    (⟨"g", ["Action"], 0, true⟩ : Item).genres.contains "Action" = true := by
  decide

theorem C2_witness :
    c2result.length ≤ 10 ∧
    (c2result.map (fun x => x.id)).Nodup ∧
    c2result.take (watchTier c2cat (firstProfileMyList c2profiles) "s").length =
      watchTier c2cat (firstProfileMyList c2profiles) "s" ∧
    (∀ x ∈ watchTier c2cat (firstProfileMyList c2profiles) "s",
      x.id ∈ firstProfileMyList c2profiles) ∧
    (∀ x ∈ c2result, x.isPublished = true ∧ x.id ≠ "s") :=
  C2_related_tiers c2cat c2profiles "s" "Movie" c2result (by decide) (by decide)

/-- C9: `getRelatedContent` reads no profile id from the request; its
watchlist tier comes exclusively from the first profile's my-list, so any
two account states agreeing on that my-list produce identical results over
the same catalog, whatever the other profiles hold and whichever profile is
actually viewing. -/
theorem C9_related_first_profile (cat : Catalog) (ps1 ps2 : List Profile)
    (srcId ty : String)
    (h : firstProfileMyList ps1 = firstProfileMyList ps2) :
    getRelatedContent cat ps1 srcId ty = getRelatedContent cat ps2 srcId ty := by
  unfold getRelatedContent
  rw [h]

theorem C9_witness :
    getRelatedContent c9cat c9ps1 "s" "Movie" =
      getRelatedContent c9cat c9ps2 "s" "Movie" :=
  C9_related_first_profile c9cat c9ps1 c9ps2 "s" "Movie" (by decide)

theorem filterMap_filter_isSome {α β : Type} (f : α → Option β) (l : List α) :
    (l.filter (fun a => (f a).isSome)).filterMap f = l.filterMap f := by
  induction l with
  | nil => rfl
  | cons a l ih =>
    cases hf : f a with
    | none => simp [List.filter_cons, List.filterMap_cons, hf, ih]
    | some b => simp [List.filter_cons, List.filterMap_cons, hf, ih]

theorem length_filterMap_of_isSome {α β : Type} (f : α → Option β) (l : List α)
    (h : ∀ a ∈ l, (f a).isSome = true) : (l.filterMap f).length = l.length := by
  induction l with
  | nil => rfl
  | cons a l ih =>
    obtain ⟨b, hb⟩ := Option.isSome_iff_exists.mp (h a (by simp))
    simp [List.filterMap_cons, hb, ih (fun x hx => h x (by simp [hx]))]

/-- C6: the continue-watching feed equals, row for row and in order, the
resolution of exactly those entries among the `limit` most recent whose
content still exists (dangling references are dropped silently, never an
error), and those surviving entries are sorted by `updatedAt` descending. -/
theorem C6_continue_watching (cat : Catalog) (p : Profile) (limit : Nat) :
    continueWatching cat p limit =
      (continueWatchingEntries cat p limit).filterMap
        (fun h => (lookupContent cat h).map (cwRow h)) ∧
    (continueWatching cat p limit).length =
      (continueWatchingEntries cat p limit).length ∧
    ((continueWatchingEntries cat p limit).map (fun h => h.updatedAt)).Sorted
      (fun a b => b ≤ a) := by
  have hsort : List.Sorted (fun a b : HistEntry => b.updatedAt ≤ a.updatedAt)
      (sortHistoryDesc p.watchHistory) :=
    List.sorted_insertionSort _ _
  have heq : continueWatching cat p limit =
      (continueWatchingEntries cat p limit).filterMap
        (fun h => (lookupContent cat h).map (cwRow h)) := by
    unfold continueWatching continueWatchingEntries
    rw [← filterMap_filter_isSome (fun h => (lookupContent cat h).map (cwRow h))]
    congr 1
    apply List.filter_congr
    intro h _
    simp
  refine ⟨heq, ?_, ?_⟩
  · rw [heq]
    apply length_filterMap_of_isSome
    intro a ha
    have := (List.mem_filter.mp ha).2
    simpa using this
  · rw [List.Sorted, List.pairwise_map]
    exact List.Pairwise.sublist
      ((List.filter_sublist _).trans (List.take_sublist _ _)) hsort

/-- C10: removing a contentId not on the my-list leaves the profile
unchanged (and still succeeds — the operation is total); removing twice
equals removing once; the result is exactly the other entries in their
original order; the watch history is untouched. -/
theorem C10_remove_idempotent (p : Profile) (cid : String) :
    (cid ∉ p.myList → removeFromMyList p cid = p) ∧
    removeFromMyList (removeFromMyList p cid) cid = removeFromMyList p cid ∧
    (removeFromMyList p cid).myList = p.myList.filter (fun i => i != cid) ∧
    (removeFromMyList p cid).watchHistory = p.watchHistory := by
  obtain ⟨wh, ml⟩ := p
  refine ⟨?_, ?_, rfl, rfl⟩
  · intro h
    simp only [removeFromMyList, Profile.mk.injEq, true_and]
    apply List.filter_eq_self.mpr
    intro a ha
    simp only [bne_iff_ne, ne_eq, decide_eq_true_eq]
    intro e
    exact h (e ▸ ha)
  · simp [removeFromMyList, List.filter_filter]

theorem C10_witness :
    removeFromMyList ⟨[], ["a", "b"]⟩ "c" = ⟨[], ["a", "b"]⟩ ∧
    removeFromMyList (removeFromMyList ⟨[], ["a", "b"]⟩ "b") "b" =
      removeFromMyList ⟨[], ["a", "b"]⟩ "b" :=
  ⟨(C10_remove_idempotent ⟨[], ["a", "b"]⟩ "c").1 (by decide),
   (C10_remove_idempotent ⟨[], ["a", "b"]⟩ "b").2.1⟩

/-- C7 (amended): `playback/start` fails with a validation error — before
any mutation, the store is returned unchanged — whenever `profileId` or
`titleId` is absent or empty or `durationMs` is absent or non-numeric. (A
present, non-empty but malformed ObjectId string instead passes validation
and surfaces as a generic 500 server error from the ObjectId conversion,
still creating no session — see the counterexample.) -/
theorem C7_start_validation (store : List Session) (b : StartBody) (fid : String)
    (now : Nat)
    (h : notEmptyOk b.profileId = false ∨ notEmptyOk b.titleId = false ∨
      isNumericOk b.durationMs = false) :
    startPlaybackRoute store b fid now = (StartOutcome.validationError, store) := by
  have hv : startValidationOk b = false := by
    rcases h with h | h | h <;> simp [startValidationOk, h]
  simp [startPlaybackRoute, hv]

theorem C7_witness :
    startPlaybackRoute []
      ⟨some "507f1f77bcf86cd799439011", some "507f1f77bcf86cd799439011", none, none,
       none, none, none, none, none, none⟩ "sess-1" 0 =
      (StartOutcome.validationError, []) :=
  C7_start_validation [] _ "sess-1" 0 (Or.inr (Or.inr (by decide)))

/-- C7 counterexample: profileId "zzz" is malformed (the ObjectId
constructor rejects it) but non-empty, so the route validators pass and the
failure surfaces as a 500 server error from the controller's catch block —
not as a validation error, refuting the claim that every malformed
profileId is rejected as a validation error. No session is created. -/
theorem C7_counterexample :
    startPlaybackRoute []
      ⟨some "zzz", some "507f1f77bcf86cd799439011", none, some (NumVal.num 600000),
       none, none, none, none, none, none⟩ "sess-1" 0 =
      (StartOutcome.serverError, []) ∧
    StartOutcome.serverError ≠ StartOutcome.validationError := by
  decide

end MovieApp
